import Mathlib

/-!
Shallow embedding of the nslog package (log_handler.go), a non-structured
text-line handler for Go's log/slog.  Pure functions model the handler code;
external collaborators (the operating system, slog value rendering, time
formatting, the color library) are explicit parameters.  Machine integers do
not overflow in any modelled path, so Nat/Int are used directly.
-/

namespace Nslog

/-- slog levels are integers: Debug = -4, Info = 0, Warn = 4, Error = 8. -/
def LevelDebug : Int := -4

/-- slog.LevelInfo. -/
def LevelInfo : Int := 0

/-- slog.LevelWarn. -/
def LevelWarn : Int := 4

/-- slog.LevelError. -/
def LevelError : Int := 8

/-- Go: const DEFAULT_LEVEL = slog.LevelInfo. -/
def DEFAULT_LEVEL : Int := LevelInfo

/-- Go: const DEFAULT_TIME_LAYOUT. -/
def DEFAULT_TIME_LAYOUT : String := "2006/01/02 15:04:05"

/-- Go: const DEFAULT_SOURCE_LEVEL = slog.LevelWarn. -/
def DEFAULT_SOURCE_LEVEL : Int := LevelWarn

/-- Model of the external slog.Value.  The `str` and `int` kinds render to a
fixed string.  The `any` kind models Go's KindAny / KindLogValuer values, whose
fmt.Sprint-style rendering may read mutable state of the referent; the shallow
embedding makes that state explicit as a time index `t : Nat`, so `any f`
renders as `f t` when the String() call happens at time `t`. -/
inductive SValue where
  | str (s : String)
  | int (i : Int)
  | any (f : Nat → String)

/-- slog.Value.String() performed at time `t`. -/
def SValue.render (t : Nat) : SValue → String
  | .str s => s
  | .int i => toString i
  | .any f => f t

/-- Model of slog.Attr: a key together with a value. -/
structure SAttr where
  key : String
  value : SValue

/-- Caller-facing options struct (Go: LogHandlerOptions).  Go declares `Level`
and `AddSourceLevel` as nilable `slog.Leveler` interface fields; `none` models
nil.  The remaining fields are plain Go values whose zero values are `false`
and the empty string. -/
structure LogHandlerOptions where
  Level : Option Int
  AddColor : Bool
  TimeLayout : String
  AddPID : Bool
  AddGoroutineID : Bool
  AddSourceLevel : Option Int
  SourceFilePath : Bool
deriving DecidableEq

/-- The Go zero value of LogHandlerOptions (what `&LogHandlerOptions{}` holds). -/
def zeroOptions : LogHandlerOptions :=
  { Level := none, AddColor := false, TimeLayout := "", AddPID := false,
    AddGoroutineID := false, AddSourceLevel := none, SourceFilePath := false }

/-- Process environment as seen through os.Getenv: unset variables read as "". -/
def Env : Type := String → String

/-- Lowercasing of a string character by character (ASCII range). -/
def strLower (s : String) : String := String.mk (s.data.map Char.toLower)

/-- strings.EqualFold from the Go standard library, modelled as ASCII
case-insensitive comparison.  (Go performs Unicode simple folding; for the
ASCII keywords compared here the two coincide.) -/
def equalFold (a b : String) : Bool := strLower a == strLower b

/-- Default filling block of NewLogHandler (log_handler.go lines 52-64): nil
Level, empty TimeLayout and nil AddSourceLevel are replaced by the defaults. -/
def applyDefaults (opts : LogHandlerOptions) : LogHandlerOptions :=
  let o1 := if opts.Level = none then { opts with Level := some DEFAULT_LEVEL } else opts
  let o2 := if o1.TimeLayout = "" then { o1 with TimeLayout := DEFAULT_TIME_LAYOUT } else o1
  if o2.AddSourceLevel = none then { o2 with AddSourceLevel := some DEFAULT_SOURCE_LEVEL } else o2

/-- Environment override for Level (log_handler.go lines 67-78): a switch on
os.Getenv("GO_NSLOG_LEVEL") accepting exactly the four literal strings. -/
def applyEnvLevel (env : Env) (o : LogHandlerOptions) : LogHandlerOptions :=
  match env "GO_NSLOG_LEVEL" with
  | "ERROR" => { o with Level := some LevelError }
  | "WARN" => { o with Level := some LevelWarn }
  | "INFO" => { o with Level := some LevelInfo }
  | "DEBUG" => { o with Level := some LevelDebug }
  | _ => o

/-- The repeated environment-boolean pattern of NewLogHandler (for example
lines 79-86): EqualFold(v,"false") or v=="0" sets false, else EqualFold
(v,"true") or v=="1" sets true, else the prior value is kept. -/
def goBoolOverride (v : String) (prior : Bool) : Bool :=
  if equalFold v "false" || v == "0" then false
  else if equalFold v "true" || v == "1" then true
  else prior

/-- Environment override for AddColor (log_handler.go lines 79-86). -/
def applyEnvAddColor (env : Env) (o : LogHandlerOptions) : LogHandlerOptions :=
  { o with AddColor := goBoolOverride (env "GO_NSLOG_ADD_COLOR") o.AddColor }

/-- Environment override for TimeLayout (log_handler.go lines 87-90): any
non-empty value replaces the layout verbatim. -/
def applyEnvTimeLayout (env : Env) (o : LogHandlerOptions) : LogHandlerOptions :=
  if env "GO_NSLOG_TIME_LAYOUT" ≠ "" then { o with TimeLayout := env "GO_NSLOG_TIME_LAYOUT" } else o

/-- Environment override for AddPID (log_handler.go lines 91-98). -/
def applyEnvAddPID (env : Env) (o : LogHandlerOptions) : LogHandlerOptions :=
  { o with AddPID := goBoolOverride (env "GO_NSLOG_ADD_PID") o.AddPID }

/-- Environment override for AddGoroutineID (log_handler.go lines 99-106). -/
def applyEnvAddGoroutineID (env : Env) (o : LogHandlerOptions) : LogHandlerOptions :=
  { o with AddGoroutineID := goBoolOverride (env "GO_NSLOG_ADD_GOROUTINEID") o.AddGoroutineID }

/-- Environment override for AddSourceLevel (log_handler.go lines 107-118). -/
def applyEnvAddSourceLevel (env : Env) (o : LogHandlerOptions) : LogHandlerOptions :=
  match env "GO_NSLOG_ADD_SOURCE_LEVEL" with
  | "ERROR" => { o with AddSourceLevel := some LevelError }
  | "WARN" => { o with AddSourceLevel := some LevelWarn }
  | "INFO" => { o with AddSourceLevel := some LevelInfo }
  | "DEBUG" => { o with AddSourceLevel := some LevelDebug }
  | _ => o

/-- Environment override for SourceFilePath (log_handler.go lines 119-126). -/
def applyEnvSourceFilePath (env : Env) (o : LogHandlerOptions) : LogHandlerOptions :=
  { o with SourceFilePath := goBoolOverride (env "GO_NSLOG_SOURCE_FILE_PATH") o.SourceFilePath }

/-- The full option-resolution sequence of NewLogHandler (lines 52-126): a nil
pointer is replaced by a fresh zero struct, defaults are filled, then each
environment override is applied in program order. -/
def resolveOptions (opts0 : Option LogHandlerOptions) (env : Env) : LogHandlerOptions :=
  applyEnvSourceFilePath env (applyEnvAddSourceLevel env (applyEnvAddGoroutineID env
    (applyEnvAddPID env (applyEnvTimeLayout env (applyEnvAddColor env
      (applyEnvLevel env (applyDefaults (opts0.getD zeroOptions))))))))

/-- Options as stored inside a constructed handler.  Go keeps the same struct
type, but NewLogHandler guarantees that the two Leveler fields are non-nil in
every handler it returns (see resolveOptions_isSome below), so the
handler-side view has them as plain integers. -/
structure ResolvedOptions where
  Level : Int
  AddColor : Bool
  TimeLayout : String
  AddPID : Bool
  AddGoroutineID : Bool
  AddSourceLevel : Int
  SourceFilePath : Bool
deriving DecidableEq

/-- View of a fully-resolved LogHandlerOptions.  The getD defaults are
unreachable for the output of resolveOptions, which always sets both fields. -/
def toResolved (o : LogHandlerOptions) : ResolvedOptions :=
  { Level := o.Level.getD DEFAULT_LEVEL, AddColor := o.AddColor,
    TimeLayout := o.TimeLayout, AddPID := o.AddPID,
    AddGoroutineID := o.AddGoroutineID,
    AddSourceLevel := o.AddSourceLevel.getD DEFAULT_SOURCE_LEVEL,
    SourceFilePath := o.SourceFilePath }

/-- Handler state (Go: struct LogHandler).  The writer and the mutex are
external references; they are modelled by identity tokens so that sharing
across derived handlers is observable. -/
structure LogHandler where
  options : ResolvedOptions
  attrs : List SAttr
  groups : List String
  writer : Nat
  mutex : Nat

/-- NewLogHandler (lines 51-133).  Go mutates the caller-supplied options
object through its pointer while resolving; explicit state passing renders the
pointer write-back as the second component: for a non-nil argument it is the
value the caller's object holds after the call, for nil there is no caller
object to observe.  The mutex is freshly constructed at the root (token 0). -/
def NewLogHandler (writer : Nat) (opts0 : Option LogHandlerOptions) (env : Env) :
    LogHandler × Option LogHandlerOptions :=
  let resolved := resolveOptions opts0 env
  ({ options := toResolved resolved, attrs := [], groups := [],
     writer := writer, mutex := 0 },
   opts0.map (fun _ => resolved))

/-- clone (lines 135-143), functional view: the aliasing effect of
slices.Clip is modelled separately by the slice-heap development below. -/
def LogHandler.clone (handler : LogHandler) : LogHandler :=
  { options := handler.options, attrs := handler.attrs, groups := handler.groups,
    writer := handler.writer, mutex := handler.mutex }

/-- WithAttrs (lines 149-153): clone, then append the new attributes.  The
attribute values are stored unrendered. -/
def LogHandler.withAttrs (handler : LogHandler) (attrs : List SAttr) : LogHandler :=
  let new_handler := handler.clone
  { new_handler with attrs := new_handler.attrs ++ attrs }

/-- WithGroup (lines 155-159): clone, then append the group name. -/
def LogHandler.withGroup (handler : LogHandler) (name : String) : LogHandler :=
  let new_handler := handler.clone
  { new_handler with groups := new_handler.groups ++ [name] }

/-- Enabled (lines 145-147): level >= handler.options.Level.Level(). -/
def LogHandler.Enabled (handler : LogHandler) (level : Int) : Bool :=
  decide (handler.options.Level ≤ level)

/-- Go's filepath.Base restricted to slash-separated paths (the handler runs
it on file paths produced by the runtime): empty input gives ".", trailing
slashes are dropped, all-slash input gives "/", otherwise the last component. -/
def filepathBase (path : String) : String :=
  if path = "" then "."
  else
    let stripped := (path.toList.reverse.dropWhile (fun c => c = '/')).reverse
    if stripped = [] then "/"
    else String.mk (stripped.reverse.takeWhile (fun c => c ≠ '/')).reverse

/-- Uppercase hexadecimal digits of `n` (Go fmt verb %X for unsigned values). -/
def hexUpper (n : Nat) : String := String.mk ((Nat.toDigits 16 n).map Char.toUpper)

/-- Go fmt "%04X" / "%08X": zero-pad the uppercase hex digits to width `w`
(wider values keep all their digits). -/
def fmtHex (w : Nat) (n : Nat) : String :=
  let s := hexUpper n
  String.mk (List.replicate (w - s.length) '0') ++ s

/-- Log event (Go: slog.Record).  `timeFormat` is the external behaviour of
record.Time.Format: it maps a layout string to the formatted timestamp.
`pc` is the call-site program counter, 0 when absent. -/
structure Record where
  timeFormat : String → String
  level : Int
  message : String
  pc : Nat
  attrs : List SAttr

/-- External inputs consumed by Handle: the OS pid, the goroutine id parsed
from runtime.Stack (0 when parsing fails), the file and line resolved from
record.PC by runtime.CallersFrames, and the four color wrappers of the
fatih/color library. -/
structure HandleExt where
  pid : Nat
  goroutineID : Nat
  frameFile : String
  frameLine : Nat
  hiRed : String → String
  hiYellow : String → String
  hiGreen : String → String
  hiCyan : String → String

/-- Rendering of a list of attributes to key=value strings at time `t`
(Handle lines 219-222 and 237-241 both use this shape). -/
def attrStrings (attrs : List SAttr) (t : Nat) : List String :=
  attrs.map (fun a => a.key ++ "=" ++ a.value.render t)

/-- Level tag computation of Handle (lines 181-210). -/
def levelTag (handler : LogHandler) (ext : HandleExt) (record : Record) : String :=
  if record.level = LevelError then
    (if handler.options.AddColor then ext.hiRed "ERROR" else "ERROR")
  else if record.level = LevelWarn then
    (if handler.options.AddColor then ext.hiYellow "WARN." else "WARN.")
  else if record.level = LevelInfo then
    (if handler.options.AddColor then ext.hiGreen "INFO." else "INFO.")
  else if record.level = LevelDebug then
    (if handler.options.AddColor then ext.hiCyan "DEBUG" else "DEBUG")
  else "UNSET"

/-- The "with" clause of Handle (lines 212-231): dot-joined groups, bracketed
space-joined handler attributes, and a trailing colon when non-empty.
Attribute values are rendered here, at time `t`. -/
def withClause (handler : LogHandler) (t : Nat) : String :=
  let wg := if handler.groups.length > 0 then String.intercalate "." handler.groups else ""
  let was := attrStrings handler.attrs t
  let w := if was.length > 0 then wg ++ "[" ++ String.intercalate " " was ++ "]" else wg
  if w ≠ "" then w ++ ":" else w

/-- Source field of Handle (lines 243-254). -/
def sourceField (handler : LogHandler) (ext : HandleExt) (record : Record) : String :=
  if handler.options.AddSourceLevel ≤ record.level then
    if record.pc ≠ 0 then
      if handler.options.SourceFilePath then
        "(" ++ ext.frameFile ++ ":" ++ toString ext.frameLine ++ ")"
      else
        "(" ++ filepathBase ext.frameFile ++ ":" ++ toString ext.frameLine ++ ")"
    else ""
  else ""

/-- Field assembly of Handle (lines 161-274): the list log_strings as built by
the sequence of conditional appends.  `t` is the time at which the Handle call
runs (it only affects the rendering of `any`-kind attribute values). -/
def handleStrings (handler : LogHandler) (ext : HandleExt) (record : Record) (t : Nat) :
    List String :=
  let time := record.timeFormat handler.options.TimeLayout
  let pid : Nat := if handler.options.AddPID then ext.pid else 0
  let goroutineID : Nat := if handler.options.AddGoroutineID then ext.goroutineID else 0
  let level := levelTag handler ext record
  let w := withClause handler t
  let message := record.message
  let attributes := attrStrings record.attrs t
  let source := sourceField handler ext record
  let log1 := [time]
  let log2 := log1 ++ (if pid > 0 then [fmtHex 4 pid] else [])
  let log3 := log2 ++ (if goroutineID > 0 then [fmtHex 8 goroutineID] else [])
  let log4 := log3 ++ [level]
  let log5 := log4 ++ (if w ≠ "" then [w] else [])
  let log6 := log5 ++ [message]
  let log7 := log6 ++ (if attributes.length > 0 then [String.intercalate " " attributes] else [])
  log7 ++ (if source ≠ "" then [source] else [])

/-- Handle, rendering part (line 274): the bytes written for one event. -/
def handle (handler : LogHandler) (ext : HandleExt) (record : Record) (t : Nat) : String :=
  String.intercalate " " (handleStrings handler ext record t) ++ "\n"

/-- Handle, write part (lines 276-279): the sink is a list of performed writes
and one Handle call appends exactly one write to it. -/
def handleSink (handler : LogHandler) (ext : HandleExt) (record : Record) (t : Nat)
    (sink : List String) : List String :=
  sink ++ [handle handler ext record t]

/-- Tokens of the rendered line after the optional pid and goroutine-id
fields: level tag, optional scope clause, message, optional event attributes,
optional source. -/
def restTokens (handler : LogHandler) (ext : HandleExt) (record : Record) (t : Nat) :
    List String :=
  [levelTag handler ext record]
    ++ (if withClause handler t ≠ "" then [withClause handler t] else [])
    ++ [record.message]
    ++ (if record.attrs.length > 0 then [String.intercalate " " (attrStrings record.attrs t)] else [])
    ++ (if sourceField handler ext record ≠ "" then [sourceField handler ext record] else [])

/-- Modelled from the spec: the scope prefix as worded in section 4.2 and 6 of
the specification, namely the dot-joined group names, followed immediately by
the bracketed space-joined attribute pairs when there are any, followed by a
trailing colon when either part is non-empty. -/
def specScope (groupNames : List String) (attrPairs : List String) : String :=
  let gpart := String.intercalate "." groupNames
  let apart := if attrPairs = [] then "" else "[" ++ String.intercalate " " attrPairs ++ "]"
  gpart ++ apart ++ (if gpart ≠ "" ∨ apart ≠ "" then ":" else "")

/-- One derivation step on a handler chain: entering a group or adding
attributes. -/
inductive DeriveOp where
  | group (name : String)
  | addAttrs (pairs : List SAttr)

/-- Application of one derivation step. -/
def applyOp (h : LogHandler) : DeriveOp → LogHandler
  | .group name => h.withGroup name
  | .addAttrs pairs => h.withAttrs pairs

/-- Application of a sequence of derivation steps, left to right. -/
def applyOps (h : LogHandler) (ops : List DeriveOp) : LogHandler := ops.foldl applyOp h

/-- Group names of a derivation sequence, in call order. -/
def opGroups : List DeriveOp → List String
  | [] => []
  | .group n :: ops => n :: opGroups ops
  | .addAttrs _ :: ops => opGroups ops

/-- Attributes of a derivation sequence, in call order. -/
def opAttrs : List DeriveOp → List SAttr
  | [] => []
  | .group _ :: ops => opAttrs ops
  | .addAttrs ps :: ops => ps ++ opAttrs ops

/-! Slice-aliasing model.  The functional handler above ignores Go's slice
backing arrays.  To settle the no-mutation claim the relevant Go semantics is
modelled explicitly: a slice is a view (array id, length, capacity) into a
heap of arrays, append writes in place when spare capacity suffices and
reallocates otherwise, and slices.Clip sets the capacity to the length so a
later append can never write into memory another slice still observes. -/

/-- Heap of backing arrays, addressed by position. -/
abbrev Heap (α : Type) : Type := List (List α)

/-- Go slice header: backing array id, length, capacity. -/
structure GoSlice where
  id : Nat
  len : Nat
  cap : Nat
deriving DecidableEq

/-- The list a slice observes: the first `len` elements of its array. -/
def readSlice {α : Type} (h : Heap α) (s : GoSlice) : List α := (h.getD s.id []).take s.len

/-- Overwrite of array positions starting at `i` with `xs`. -/
def writeAt {α : Type} (arr : List α) (i : Nat) (xs : List α) : List α :=
  arr.take i ++ xs ++ arr.drop (i + xs.length)

/-- Go's append: in place when length plus the addition fits the capacity,
otherwise a fresh allocation holding the old contents plus the addition.  Go
reallocates with geometric spare capacity; the spare amount is unobservable in
this development because every append below goes through a clipped slice, so
the model allocates exactly. -/
def goAppend {α : Type} (h : Heap α) (s : GoSlice) (xs : List α) : Heap α × GoSlice :=
  if s.len + xs.length ≤ s.cap then
    (h.set s.id (writeAt (h.getD s.id []) s.len xs), { s with len := s.len + xs.length })
  else
    (h ++ [readSlice h s ++ xs],
     { id := h.length, len := s.len + xs.length, cap := s.len + xs.length })

/-- slices.Clip: capacity reduced to the length. -/
def clip (s : GoSlice) : GoSlice := { s with cap := s.len }

/-- Well-formed slice: the array exists and the view fits inside it. -/
def wfSlice {α : Type} (h : Heap α) (s : GoSlice) : Prop :=
  s.id < h.length ∧ s.len ≤ s.cap ∧ s.cap ≤ (h.getD s.id []).length

/-- Handler state over the slice model (Go: struct LogHandler, with attrs and
groups as real slices). -/
structure LogHandlerS where
  options : ResolvedOptions
  attrs : GoSlice
  groups : GoSlice
  writer : Nat
  mutex : Nat

/-- The two heaps backing the two slice fields.  Go has a single memory, but
slices of distinct element types never alias, so they are kept apart. -/
structure Mem where
  attrHeap : Heap SAttr
  groupHeap : Heap String

/-- clone (lines 135-143) over the slice model: same options, writer and
mutex, both slices clipped. -/
def LogHandlerS.clone (handler : LogHandlerS) : LogHandlerS :=
  { handler with attrs := clip handler.attrs, groups := clip handler.groups }

/-- WithAttrs (lines 149-153) over the slice model: clone, then append to the
clipped attrs slice. -/
def withAttrsS (m : Mem) (handler : LogHandlerS) (pairs : List SAttr) : Mem × LogHandlerS :=
  let n := handler.clone
  let r := goAppend m.attrHeap n.attrs pairs
  ({ m with attrHeap := r.1 }, { n with attrs := r.2 })

/-- WithGroup (lines 155-159) over the slice model. -/
def withGroupS (m : Mem) (handler : LogHandlerS) (name : String) : Mem × LogHandlerS :=
  let n := handler.clone
  let r := goAppend m.groupHeap n.groups [name]
  ({ m with groupHeap := r.1 }, { n with groups := r.2 })

/-! Modelled from the spec: the configuration-resolution contract of section
4.1, used to compare resolveOptions against the specification wording. -/

/-- Modelled from the spec: a level variable accepts exactly one of the four
literal strings; any other value leaves the prior value untouched. -/
def specLevelParse (v : String) (prior : Option Int) : Option Int :=
  if v = "ERROR" then some LevelError
  else if v = "WARN" then some LevelWarn
  else if v = "INFO" then some LevelInfo
  else if v = "DEBUG" then some LevelDebug
  else prior

/-- Modelled from the spec: a boolean variable accepts case-insensitive
"true"/"1" as true and "false"/"0" as false; any other value leaves the prior
value untouched. -/
def specBoolParse (v : String) (prior : Bool) : Bool :=
  if strLower v = "true" ∨ v = "1" then true
  else if strLower v = "false" ∨ v = "0" then false
  else prior

/-- Modelled from the spec: unset fields take the documented defaults. -/
def specDefaults (o : LogHandlerOptions) : LogHandlerOptions :=
  { Level := some (o.Level.getD DEFAULT_LEVEL),
    AddColor := o.AddColor,
    TimeLayout := if o.TimeLayout = "" then DEFAULT_TIME_LAYOUT else o.TimeLayout,
    AddPID := o.AddPID,
    AddGoroutineID := o.AddGoroutineID,
    AddSourceLevel := some (o.AddSourceLevel.getD DEFAULT_SOURCE_LEVEL),
    SourceFilePath := o.SourceFilePath }

/-- Modelled from the spec: defaults first (a nil options object behaving as
all-unset), then the independent environment overrides. -/
def specResolve (opts0 : Option LogHandlerOptions) (env : Env) : LogHandlerOptions :=
  let o := specDefaults (opts0.getD zeroOptions)
  { Level := specLevelParse (env "GO_NSLOG_LEVEL") o.Level,
    AddColor := specBoolParse (env "GO_NSLOG_ADD_COLOR") o.AddColor,
    TimeLayout := if env "GO_NSLOG_TIME_LAYOUT" = "" then o.TimeLayout
      else env "GO_NSLOG_TIME_LAYOUT",
    AddPID := specBoolParse (env "GO_NSLOG_ADD_PID") o.AddPID,
    AddGoroutineID := specBoolParse (env "GO_NSLOG_ADD_GOROUTINEID") o.AddGoroutineID,
    AddSourceLevel := specLevelParse (env "GO_NSLOG_ADD_SOURCE_LEVEL") o.AddSourceLevel,
    SourceFilePath := specBoolParse (env "GO_NSLOG_SOURCE_FILE_PATH") o.SourceFilePath }

/-! Concrete fixtures used by counterexamples and witnesses. -/

/-- The empty environment: every variable unset (os.Getenv yields ""). -/
def emptyEnv : Env := fun _ => ""

/-- A handler with default configuration, as NewLogHandler(w, nil) builds it. -/
def baseHandler : LogHandler := (NewLogHandler 0 none emptyEnv).1

/-- Trivial external inputs for Handle. -/
def extTrivial : HandleExt :=
  { pid := 0, goroutineID := 0, frameFile := "", frameLine := 0,
    hiRed := id, hiYellow := id, hiGreen := id, hiCyan := id }

/-- A record whose timestamp formats to "T" and that carries no attributes. -/
def plainRecord (lv : Int) (msg : String) : Record :=
  { timeFormat := fun _ => "T", level := lv, message := msg, pc := 0, attrs := [] }

/-- An attribute whose value renders as the current time index: the image of a
Go value whose fmt.Sprint output tracks mutable state. -/
def clockAttr : SAttr := ⟨"k", SValue.any (fun t => toString t)⟩

/-- Resolved default options, for slice-model fixtures. -/
def resolvedDefault : ResolvedOptions := toResolved (resolveOptions none emptyEnv)

/-- Concrete slice-model memory: one attribute array and one group array. -/
def memW : Mem := { attrHeap := [[⟨"a", SValue.str "1"⟩]], groupHeap := [["G"]] }

/-- Concrete slice-model handler viewing both arrays of memW in full. -/
def handlerW : LogHandlerS :=
  { options := resolvedDefault, attrs := ⟨0, 1, 1⟩, groups := ⟨0, 1, 1⟩,
    writer := 7, mutex := 9 }

/-- Concrete attributes to append in the slice-model witness. -/
def attrsW : List SAttr := [⟨"b", SValue.str "2"⟩]

/-! Helper lemmas. -/

theorem strAppendEmpty (s : String) : s ++ "" = s := by
  apply String.ext
  simp [String.data_append]

theorem strAppendEqEmpty (a b : String) : a ++ b = "" ↔ a = "" ∧ b = "" := by
  constructor
  · intro h
    have hd := congrArg String.data h
    simp [String.data_append] at hd
    exact ⟨String.ext hd.1, String.ext hd.2⟩
  · rintro ⟨ha, hb⟩
    rw [ha, hb]
    rfl

theorem bracketNeEmpty (m : String) : "[" ++ (m ++ "]") ≠ "" := by
  intro h
  rw [strAppendEqEmpty] at h
  exact absurd h.1 (by decide)

theorem handleStrings_decomp (handler : LogHandler) (ext : HandleExt) (record : Record)
    (t : Nat) :
    handleStrings handler ext record t =
      [record.timeFormat handler.options.TimeLayout]
        ++ (if handler.options.AddPID ∧ 0 < ext.pid then [fmtHex 4 ext.pid] else [])
        ++ (if handler.options.AddGoroutineID ∧ 0 < ext.goroutineID then
              [fmtHex 8 ext.goroutineID] else [])
        ++ restTokens handler ext record t := by
  unfold handleStrings restTokens
  cases hp : handler.options.AddPID <;> cases hg : handler.options.AddGoroutineID <;>
    simp [hp, hg, attrStrings, List.append_assoc]

theorem scope_shape (groups was : List String) :
    (let wg := if groups.length > 0 then String.intercalate "." groups else ""
     let w := if was.length > 0 then wg ++ "[" ++ String.intercalate " " was ++ "]" else wg
     if w ≠ "" then w ++ ":" else w) = specScope groups was := by
  have hwg : (if groups.length > 0 then String.intercalate "." groups else "")
      = String.intercalate "." groups := by
    cases groups <;> simp [String.intercalate]
  simp only [hwg, specScope]
  by_cases hwas : was = []
  · subst hwas
    simp only [List.length_nil, gt_iff_lt, Nat.lt_irrefl, if_false, ite_true, or_false]
    by_cases hg : String.intercalate "." groups = ""
    · simp [hg]
    · simp [hg, strAppendEmpty]
  · have hlen : was.length > 0 := List.length_pos.mpr hwas
    have hbr := bracketNeEmpty (String.intercalate " " was)
    have hne : String.intercalate "." groups ++ ("[" ++ (String.intercalate " " was ++ "]")) ≠ "" := by
      intro h
      rw [strAppendEqEmpty] at h
      exact hbr h.2
    simp [hlen, hwas, hne, hbr, String.append_assoc]

theorem withClause_eq_specScope (handler : LogHandler) (t : Nat) :
    withClause handler t = specScope handler.groups (attrStrings handler.attrs t) :=
  scope_shape handler.groups (attrStrings handler.attrs t)

theorem applyOps_decomp (ops : List DeriveOp) (h : LogHandler) :
    applyOps h ops =
      ⟨h.options, h.attrs ++ opAttrs ops, h.groups ++ opGroups ops, h.writer, h.mutex⟩ := by
  induction ops generalizing h with
  | nil => simp [applyOps, opAttrs, opGroups]
  | cons op ops ih =>
    show applyOps (applyOp h op) ops = _
    rw [ih]
    cases op with
    | group n =>
      simp [applyOp, LogHandler.withGroup, LogHandler.clone, opGroups, opAttrs,
        List.append_assoc]
    | addAttrs ps =>
      simp [applyOp, LogHandler.withAttrs, LogHandler.clone, opGroups, opAttrs,
        List.append_assoc]

theorem readSlice_clip {α : Type} (h : Heap α) (s : GoSlice) :
    readSlice h (clip s) = readSlice h s := rfl

theorem goAppend_heapLen {α : Type} (h : Heap α) (s : GoSlice) (xs : List α) :
    h.length ≤ (goAppend h s xs).1.length := by
  unfold goAppend
  split
  · simp
  · simp

theorem writeAt_nil {α : Type} (arr : List α) (i : Nat) : writeAt arr i [] = arr := by
  unfold writeAt
  simp

theorem goAppend_clipped_getD {α : Type} (h : Heap α) (s : GoSlice) (xs : List α)
    (hcl : s.cap = s.len) (hid : s.id < h.length) (i : Nat) (hi : i < h.length) :
    (goAppend h s xs).1.getD i [] = h.getD i [] := by
  unfold goAppend
  split
  case isTrue hle =>
    have hx : xs = [] := by
      rw [hcl] at hle
      exact List.length_eq_zero.mp (by omega)
    subst hx
    rw [writeAt_nil]
    by_cases hij : s.id = i
    · subst hij
      simp [List.getD_eq_getElem?_getD, List.getElem?_set_self hid]
    · simp [List.getD_eq_getElem?_getD, List.getElem?_set_ne hij]
  case isFalse =>
    exact List.getD_append _ _ _ _ hi

theorem readSlice_goAppend_other {α : Type} (h : Heap α) (s u : GoSlice) (xs : List α)
    (hcl : s.cap = s.len) (hid : s.id < h.length) (hu : u.id < h.length) :
    readSlice (goAppend h s xs).1 u = readSlice h u := by
  unfold readSlice
  rw [goAppend_clipped_getD h s xs hcl hid u.id hu]

theorem readSlice_length {α : Type} (h : Heap α) (s : GoSlice) (hwf : wfSlice h s) :
    (readSlice h s).length = s.len := by
  obtain ⟨_, hlen, hcap⟩ := hwf
  simp only [readSlice, List.length_take]
  omega

theorem getD_append_last {α : Type} (h : Heap α) (v : List α) :
    (h ++ [v]).getD h.length [] = v := by
  rw [List.getD_append_right _ _ _ _ (Nat.le_refl _)]
  simp

theorem readSlice_goAppend_self {α : Type} (h : Heap α) (s : GoSlice) (xs : List α)
    (hcl : s.cap = s.len) (hwf : wfSlice h s) :
    readSlice (goAppend h s xs).1 (goAppend h s xs).2 = readSlice h s ++ xs := by
  have hrl := readSlice_length h s hwf
  obtain ⟨hid, hlen, hcap⟩ := hwf
  unfold goAppend
  split
  case isTrue hle =>
    have hx : xs = [] := by
      rw [hcl] at hle
      exact List.length_eq_zero.mp (by omega)
    subst hx
    rw [writeAt_nil]
    simp only [readSlice, List.length_nil, Nat.add_zero, List.append_nil,
      List.getD_eq_getElem?_getD, List.getElem?_set_self hid, Option.getD_some]
  case isFalse =>
    generalize hv : readSlice h s ++ xs = v
    have hvl : v.length = s.len + xs.length := by
      rw [← hv, List.length_append, hrl]
    show List.take (s.len + xs.length) ((h ++ [v]).getD h.length []) = v
    rw [getD_append_last]
    exact List.take_of_length_le (by omega)

theorem goAppend_clipped_wf {α : Type} (h : Heap α) (s : GoSlice) (xs : List α)
    (hcl : s.cap = s.len) (hwf : wfSlice h s) :
    wfSlice (goAppend h s xs).1 (goAppend h s xs).2 := by
  have hrl := readSlice_length h s hwf
  obtain ⟨hid, hlen, hcap⟩ := hwf
  unfold goAppend
  split
  case isTrue hle =>
    have hx : xs = [] := by
      rw [hcl] at hle
      exact List.length_eq_zero.mp (by omega)
    subst hx
    rw [writeAt_nil]
    refine ⟨by simpa using hid, by simpa using hlen, ?_⟩
    show s.cap ≤ ((h.set s.id (h.getD s.id [])).getD s.id []).length
    simp only [List.getD_eq_getElem?_getD, List.getElem?_set_self hid, Option.getD_some]
    simpa [List.getD_eq_getElem?_getD] using hcap
  case isFalse =>
    generalize hv : readSlice h s ++ xs = v
    have hvl : v.length = s.len + xs.length := by
      rw [← hv, List.length_append, hrl]
    refine ⟨by simp, Nat.le_refl _, ?_⟩
    show s.len + xs.length ≤ ((h ++ [v]).getD h.length []).length
    rw [getD_append_last]
    omega

theorem goBoolOverride_eq (v : String) (prior : Bool) :
    goBoolOverride v prior = specBoolParse v prior := by
  by_cases h0 : v = "0"
  · subst h0; rfl
  by_cases h1 : v = "1"
  · subst h1; rfl
  by_cases hf : strLower v = "false"
  · have ht : ¬strLower v = "true" := by rw [hf]; decide
    simp [goBoolOverride, specBoolParse, equalFold, hf, ht, h0, h1, beq_iff_eq,
      show strLower "false" = "false" by decide, show strLower "true" = "true" by decide]
  · by_cases ht : strLower v = "true"
    · simp [goBoolOverride, specBoolParse, equalFold, hf, ht, h0, h1, beq_iff_eq,
        show strLower "false" = "false" by decide, show strLower "true" = "true" by decide]
    · simp [goBoolOverride, specBoolParse, equalFold, hf, ht, h0, h1, beq_iff_eq,
        show strLower "false" = "false" by decide, show strLower "true" = "true" by decide]

theorem applyDefaults_eq (o : LogHandlerOptions) : applyDefaults o = specDefaults o := by
  obtain ⟨L, C, T, P, G, S, F⟩ := o
  unfold applyDefaults specDefaults
  by_cases hT : T = "" <;> cases L <;> cases S <;> simp [hT]

theorem applyEnvLevel_eq (env : Env) (o : LogHandlerOptions) :
    applyEnvLevel env o
      = { o with Level := specLevelParse (env "GO_NSLOG_LEVEL") o.Level } := by
  unfold applyEnvLevel
  split <;> simp_all [specLevelParse]

theorem applyEnvAddSourceLevel_eq (env : Env) (o : LogHandlerOptions) :
    applyEnvAddSourceLevel env o
      = { o with AddSourceLevel :=
            specLevelParse (env "GO_NSLOG_ADD_SOURCE_LEVEL") o.AddSourceLevel } := by
  unfold applyEnvAddSourceLevel
  split <;> simp_all [specLevelParse]

theorem applyEnvTimeLayout_eq (env : Env) (o : LogHandlerOptions) :
    applyEnvTimeLayout env o
      = { o with TimeLayout := if env "GO_NSLOG_TIME_LAYOUT" = "" then o.TimeLayout
            else env "GO_NSLOG_TIME_LAYOUT" } := by
  unfold applyEnvTimeLayout
  by_cases h : env "GO_NSLOG_TIME_LAYOUT" = "" <;> simp [h]

theorem specLevelParse_isSome (v : String) (x : Int) :
    (specLevelParse v (some x)).isSome := by
  unfold specLevelParse
  split_ifs <;> rfl

theorem resolveOptions_isSome (opts0 : Option LogHandlerOptions) (env : Env) :
    (resolveOptions opts0 env).Level.isSome
      ∧ (resolveOptions opts0 env).AddSourceLevel.isSome := by
  unfold resolveOptions
  rw [applyDefaults_eq, applyEnvLevel_eq, applyEnvTimeLayout_eq, applyEnvAddSourceLevel_eq]
  constructor
  · simp [applyEnvAddColor, applyEnvAddPID, applyEnvAddGoroutineID, applyEnvSourceFilePath,
      specDefaults]
    exact specLevelParse_isSome _ _
  · simp [applyEnvAddColor, applyEnvAddPID, applyEnvAddGoroutineID, applyEnvSourceFilePath,
      specDefaults]
    exact specLevelParse_isSome _ _

/-! Claim theorems. -/

/-- C1 counterexample: an event at level Debug is strictly below the default
minimum level Info, yet Handle invoked directly still renders the line and
writes it to the sink, so the renderer does not honor minLevel defensively. -/
theorem handle_below_min_level_writes :
    (plainRecord LevelDebug "dbg").level < baseHandler.options.Level
      ∧ handleSink baseHandler extTrivial (plainRecord LevelDebug "dbg") 0 [] = ["T DEBUG dbg\n"]
      ∧ (["T DEBUG dbg\n"] : List String) ≠ ([] : List String) :=
  ⟨by decide, by rfl, by decide⟩

/-- C1 (amended): Handle performs no level check of its own: for every event
whose level is strictly below the configured minimum level, invoking Handle
directly still renders the event and writes one line to the sink; level
filtering happens only through the upstream Enabled check. -/
theorem handle_writes_regardless_of_level (handler : LogHandler) (ext : HandleExt)
    (record : Record) (t : Nat) (sink : List String)
    (_hbelow : record.level < handler.options.Level) :
    handleSink handler ext record t sink ≠ sink := by
  intro h
  have hlen := congrArg List.length h
  simp [handleSink] at hlen

/-- Witness for handle_writes_regardless_of_level at a concrete below-level
event. -/
theorem handle_writes_regardless_of_level_witness :
    handleSink baseHandler extTrivial (plainRecord LevelDebug "dbg") 0 [] ≠ ([] : List String) :=
  handle_writes_regardless_of_level baseHandler extTrivial (plainRecord LevelDebug "dbg") 0 []
    (by decide)

/-- C2 counterexample: a handler derived by withAttributes over a value whose
fmt.Sprint output tracks mutable state renders different lines when Handle
runs at different times, so the line does depend on re-evaluating the value at
render time, contradicting rendering at withAttributes-call time. -/
theorem withAttrs_render_time_dependent :
    handle (baseHandler.withAttrs [clockAttr]) extTrivial (plainRecord LevelInfo "m") 0
        = "T INFO. [k=0]: m\n"
      ∧ handle (baseHandler.withAttrs [clockAttr]) extTrivial (plainRecord LevelInfo "m") 1
        = "T INFO. [k=1]: m\n"
      ∧ ("T INFO. [k=0]: m\n" : String) ≠ "T INFO. [k=1]: m\n" :=
  ⟨by rfl, by rfl, by decide⟩

/-- C2 (amended): WithAttrs stores the attribute values unrendered, appending
them to the receiver's sequence; their string form is computed inside Handle,
at render time `t`. -/
theorem withAttrs_stores_values_unrendered (handler : LogHandler) (pairs : List SAttr)
    (t : Nat) :
    (handler.withAttrs pairs).attrs = handler.attrs ++ pairs
      ∧ attrStrings (handler.withAttrs pairs).attrs t
        = attrStrings handler.attrs t
            ++ pairs.map (fun a => a.key ++ "=" ++ a.value.render t) := by
  refine ⟨rfl, ?_⟩
  simp [LogHandler.withAttrs, LogHandler.clone, attrStrings]

/-- C3 counterexample: an event with empty message is not omitted: the empty
string still occupies its slot in the space-join, leaving an extra space
before the line terminator instead of the claimed clean join. -/
theorem empty_message_kept :
    handle baseHandler extTrivial (plainRecord LevelInfo "") 0 = "T INFO. \n"
      ∧ ("T INFO. \n" : String) ≠ "T INFO.\n" :=
  ⟨by rfl, by decide⟩

/-- C3 (amended): the optional fields (pid, goroutine id, scope clause, event
attributes, source) are omitted from the token list when empty or suppressed,
but the message token is always present, even when the message is the empty
string (which therefore yields consecutive spaces in the join), and the line
is the space-join of the tokens followed by exactly one line terminator. -/
theorem line_field_assembly (handler : LogHandler) (ext : HandleExt) (record : Record)
    (t : Nat) :
    handleStrings handler ext record t =
      [record.timeFormat handler.options.TimeLayout]
        ++ (if handler.options.AddPID ∧ 0 < ext.pid then [fmtHex 4 ext.pid] else [])
        ++ (if handler.options.AddGoroutineID ∧ 0 < ext.goroutineID then
              [fmtHex 8 ext.goroutineID] else [])
        ++ [levelTag handler ext record]
        ++ (if withClause handler t ≠ "" then [withClause handler t] else [])
        ++ [record.message]
        ++ (if record.attrs.length > 0 then
              [String.intercalate " " (attrStrings record.attrs t)] else [])
        ++ (if sourceField handler ext record ≠ "" then [sourceField handler ext record] else [])
      ∧ handle handler ext record t
          = String.intercalate " " (handleStrings handler ext record t) ++ "\n" := by
  refine ⟨?_, rfl⟩
  rw [handleStrings_decomp]
  simp [restTokens, List.append_assoc]

/-- C4: the scope clause equals the specification formula (dot-joined group
names, immediately followed by the bracketed space-joined attribute pairs when
any, with a trailing colon when either part is non-empty), and for a handler
with no groups and no attributes the clause is empty and contributes no token
at all to the rendered line. -/
theorem scope_clause_spec :
    (∀ (handler : LogHandler) (t : Nat),
        withClause handler t = specScope handler.groups (attrStrings handler.attrs t))
      ∧ (∀ (opts : ResolvedOptions) (w m t : Nat),
          withClause ⟨opts, [], [], w, m⟩ t = "")
      ∧ (∀ (opts : ResolvedOptions) (w m : Nat) (ext : HandleExt) (record : Record) (t : Nat),
          handleStrings ⟨opts, [], [], w, m⟩ ext record t =
            [record.timeFormat opts.TimeLayout]
              ++ (if opts.AddPID ∧ 0 < ext.pid then [fmtHex 4 ext.pid] else [])
              ++ (if opts.AddGoroutineID ∧ 0 < ext.goroutineID then
                    [fmtHex 8 ext.goroutineID] else [])
              ++ [levelTag ⟨opts, [], [], w, m⟩ ext record]
              ++ [record.message]
              ++ (if record.attrs.length > 0 then
                    [String.intercalate " " (attrStrings record.attrs t)] else [])
              ++ (if sourceField ⟨opts, [], [], w, m⟩ ext record ≠ "" then
                    [sourceField ⟨opts, [], [], w, m⟩ ext record] else [])) := by
  refine ⟨withClause_eq_specScope, fun _ _ _ _ => rfl, ?_⟩
  intro opts w m ext record t
  rw [handleStrings_decomp]
  have hw : withClause ⟨opts, [], [], w, m⟩ t = "" := rfl
  simp [restTokens, hw, List.append_assoc]

/-- C5: the scope clause of a derived handler depends only on the order of
group names among themselves and of attributes among themselves, not on how
the two operation kinds interleave; in particular the two sample chains both
render the scope clause G1.G2[pid=0]:. -/
theorem scope_interleaving_invariant :
    (∀ (base : LogHandler) (ops1 ops2 : List DeriveOp) (t : Nat),
        opGroups ops1 = opGroups ops2 → opAttrs ops1 = opAttrs ops2 →
        withClause (applyOps base ops1) t = withClause (applyOps base ops2) t)
      ∧ withClause (applyOps baseHandler
          [DeriveOp.group "G1", DeriveOp.group "G2",
            DeriveOp.addAttrs [⟨"pid", SValue.int 0⟩]]) 0 = "G1.G2[pid=0]:"
      ∧ withClause (applyOps baseHandler
          [DeriveOp.group "G1", DeriveOp.addAttrs [⟨"pid", SValue.int 0⟩],
            DeriveOp.group "G2"]) 0 = "G1.G2[pid=0]:" := by
  refine ⟨?_, rfl, rfl⟩
  intro base ops1 ops2 t hg ha
  rw [applyOps_decomp, applyOps_decomp, hg, ha]

/-- Witness for scope_interleaving_invariant on two concrete interleavings
with equal group order and equal attribute order. -/
theorem scope_interleaving_invariant_witness :
    withClause (applyOps baseHandler [DeriveOp.group "A", DeriveOp.addAttrs []]) 0
      = withClause (applyOps baseHandler [DeriveOp.addAttrs [], DeriveOp.group "A"]) 0 :=
  scope_interleaving_invariant.1 baseHandler _ _ 0 rfl rfl

/-- C8: the pid field is present (right after the timestamp) if and only if
AddPID is set and the resolved pid is positive, rendered zero-padded to four
uppercase hex digits; the goroutine-id field is present if and only if
AddGoroutineID is set and the resolved id is positive, zero-padded to eight
uppercase hex digits; a resolved value of zero is suppressed regardless of the
flags, since zero is not positive. -/
theorem pid_goroutine_field_conditions (handler : LogHandler) (ext : HandleExt)
    (record : Record) (t : Nat) :
    handleStrings handler ext record t =
      [record.timeFormat handler.options.TimeLayout]
        ++ (if handler.options.AddPID ∧ 0 < ext.pid then [fmtHex 4 ext.pid] else [])
        ++ (if handler.options.AddGoroutineID ∧ 0 < ext.goroutineID then
              [fmtHex 8 ext.goroutineID] else [])
        ++ restTokens handler ext record t
      ∧ fmtHex 4 10 = "000A" ∧ fmtHex 8 255 = "000000FF" :=
  ⟨handleStrings_decomp handler ext record t, rfl, rfl⟩

/-- C6: over the slice-aliasing model, WithAttrs and WithGroup never mutate
the receiver: deriving a child (even several children from the same parent, in
sequence) leaves the parent's observable attribute and group sequences
unchanged, each child observes the parent's sequence with exactly its own
entries appended and is itself undisturbed by later derivations from the same
parent, and every child shares the parent's configuration, writer and mutex. -/
theorem derivation_never_mutates_parent
    (m : Mem) (p : LogHandlerS) (as1 as2 : List SAttr) (g : String)
    (hwa : wfSlice m.attrHeap p.attrs) (hwg : wfSlice m.groupHeap p.groups) :
    readSlice (withGroupS (withAttrsS (withAttrsS m p as1).1 p as2).1 p g).1.attrHeap p.attrs
        = readSlice m.attrHeap p.attrs
      ∧ readSlice (withGroupS (withAttrsS (withAttrsS m p as1).1 p as2).1 p g).1.groupHeap
            p.groups
        = readSlice m.groupHeap p.groups
      ∧ readSlice (withGroupS (withAttrsS (withAttrsS m p as1).1 p as2).1 p g).1.attrHeap
            (withAttrsS m p as1).2.attrs
        = readSlice m.attrHeap p.attrs ++ as1
      ∧ readSlice (withGroupS (withAttrsS (withAttrsS m p as1).1 p as2).1 p g).1.attrHeap
            (withAttrsS (withAttrsS m p as1).1 p as2).2.attrs
        = readSlice m.attrHeap p.attrs ++ as2
      ∧ readSlice (withGroupS (withAttrsS (withAttrsS m p as1).1 p as2).1 p g).1.groupHeap
            (withGroupS (withAttrsS (withAttrsS m p as1).1 p as2).1 p g).2.groups
        = readSlice m.groupHeap p.groups ++ [g]
      ∧ readSlice (withGroupS (withAttrsS (withAttrsS m p as1).1 p as2).1 p g).1.groupHeap
            (withAttrsS m p as1).2.groups
        = readSlice m.groupHeap p.groups
      ∧ (withAttrsS m p as1).2.options = p.options
      ∧ (withAttrsS m p as1).2.writer = p.writer
      ∧ (withAttrsS m p as1).2.mutex = p.mutex
      ∧ (withGroupS (withAttrsS (withAttrsS m p as1).1 p as2).1 p g).2.options = p.options
      ∧ (withGroupS (withAttrsS (withAttrsS m p as1).1 p as2).1 p g).2.writer = p.writer
      ∧ (withGroupS (withAttrsS (withAttrsS m p as1).1 p as2).1 p g).2.mutex = p.mutex := by
  obtain ⟨hidA, hlenA, hcapA⟩ := hwa
  obtain ⟨hidG, hlenG, hcapG⟩ := hwg
  have hwf0 : wfSlice m.attrHeap (clip p.attrs) :=
    ⟨hidA, Nat.le_refl _, Nat.le_trans hlenA hcapA⟩
  have hwf0g : wfSlice m.groupHeap (clip p.groups) :=
    ⟨hidG, Nat.le_refl _, Nat.le_trans hlenG hcapG⟩
  have hid1 : p.attrs.id < (goAppend m.attrHeap (clip p.attrs) as1).1.length :=
    Nat.lt_of_lt_of_le hidA (goAppend_heapLen m.attrHeap (clip p.attrs) as1)
  have hwf1 : wfSlice (goAppend m.attrHeap (clip p.attrs) as1).1
      (goAppend m.attrHeap (clip p.attrs) as1).2 :=
    goAppend_clipped_wf m.attrHeap (clip p.attrs) as1 rfl hwf0
  have hwf1p : wfSlice (goAppend m.attrHeap (clip p.attrs) as1).1 (clip p.attrs) := by
    refine ⟨hid1, Nat.le_refl _, ?_⟩
    have hpres := goAppend_clipped_getD m.attrHeap (clip p.attrs) as1 rfl hidA p.attrs.id hidA
    show p.attrs.len ≤ ((goAppend m.attrHeap (clip p.attrs) as1).1.getD p.attrs.id []).length
    rw [hpres]
    exact Nat.le_trans hlenA hcapA
  refine ⟨?_, ?_, ?_, ?_, ?_, ?_, rfl, rfl, rfl, rfl, rfl, rfl⟩
  · show readSlice (goAppend (goAppend m.attrHeap (clip p.attrs) as1).1 (clip p.attrs) as2).1
        p.attrs = readSlice m.attrHeap p.attrs
    rw [readSlice_goAppend_other (goAppend m.attrHeap (clip p.attrs) as1).1 (clip p.attrs)
      p.attrs as2 rfl hid1 hid1]
    exact readSlice_goAppend_other m.attrHeap (clip p.attrs) p.attrs as1 rfl hidA hidA
  · show readSlice (goAppend m.groupHeap (clip p.groups) [g]).1 p.groups
        = readSlice m.groupHeap p.groups
    exact readSlice_goAppend_other m.groupHeap (clip p.groups) p.groups [g] rfl hidG hidG
  · show readSlice (goAppend (goAppend m.attrHeap (clip p.attrs) as1).1 (clip p.attrs) as2).1
        (goAppend m.attrHeap (clip p.attrs) as1).2 = readSlice m.attrHeap p.attrs ++ as1
    rw [readSlice_goAppend_other (goAppend m.attrHeap (clip p.attrs) as1).1 (clip p.attrs)
      (goAppend m.attrHeap (clip p.attrs) as1).2 as2 rfl hid1 hwf1.1]
    exact readSlice_goAppend_self m.attrHeap (clip p.attrs) as1 rfl hwf0
  · show readSlice (goAppend (goAppend m.attrHeap (clip p.attrs) as1).1 (clip p.attrs) as2).1
        (goAppend (goAppend m.attrHeap (clip p.attrs) as1).1 (clip p.attrs) as2).2
        = readSlice m.attrHeap p.attrs ++ as2
    rw [readSlice_goAppend_self (goAppend m.attrHeap (clip p.attrs) as1).1 (clip p.attrs) as2
      rfl hwf1p]
    rw [show readSlice (goAppend m.attrHeap (clip p.attrs) as1).1 (clip p.attrs)
        = readSlice m.attrHeap p.attrs from
      readSlice_goAppend_other m.attrHeap (clip p.attrs) (clip p.attrs) as1 rfl hidA hidA]
  · show readSlice (goAppend m.groupHeap (clip p.groups) [g]).1
        (goAppend m.groupHeap (clip p.groups) [g]).2
        = readSlice m.groupHeap p.groups ++ [g]
    exact readSlice_goAppend_self m.groupHeap (clip p.groups) [g] rfl hwf0g
  · show readSlice (goAppend m.groupHeap (clip p.groups) [g]).1 (clip p.groups)
        = readSlice m.groupHeap p.groups
    exact readSlice_goAppend_other m.groupHeap (clip p.groups) (clip p.groups) [g] rfl hidG hidG

/-- Witness for derivation_never_mutates_parent on a concrete memory, parent
and derivation sequence. -/
theorem derivation_never_mutates_parent_witness :
    readSlice (withGroupS (withAttrsS (withAttrsS memW handlerW attrsW).1 handlerW []).1
        handlerW "H").1.attrHeap handlerW.attrs
      = readSlice memW.attrHeap handlerW.attrs :=
  (derivation_never_mutates_parent memW handlerW attrsW [] "H"
    ⟨by decide, by decide, by decide⟩ ⟨by decide, by decide, by decide⟩).1

/-- C7: configuration resolution fills unset fields with the documented
defaults (a nil options object behaving as all-unset) and then applies the
environment overrides: the level variables change the value only on exactly
one of ERROR, WARN, INFO, DEBUG; the boolean variables only on
case-insensitive true/1 or false/0; the time-layout variable only when
non-empty; every other value (the unset empty string included) leaves the
prior value untouched, and resolution is total so no error is ever raised. -/
theorem option_resolution_matches_spec :
    ∀ (opts0 : Option LogHandlerOptions) (env : Env),
      resolveOptions opts0 env = specResolve opts0 env
        ∧ resolveOptions none env = resolveOptions (some zeroOptions) env := by
  intro opts0 env
  refine ⟨?_, rfl⟩
  unfold resolveOptions specResolve
  rw [applyDefaults_eq, applyEnvLevel_eq, applyEnvTimeLayout_eq, applyEnvAddSourceLevel_eq]
  simp [applyEnvAddColor, applyEnvAddPID, applyEnvAddGoroutineID, applyEnvSourceFilePath,
    goBoolOverride_eq]

/-- C9: NewLogHandler writes the resolved configuration back through the
caller-supplied options pointer: for every non-nil options argument the
caller's object afterwards holds exactly the resolved configuration, and for
the zero options object that resolved value differs from what the caller
originally set. -/
theorem options_written_back :
    (∀ (w : Nat) (o : LogHandlerOptions) (env : Env),
        (NewLogHandler w (some o) env).2 = some (resolveOptions (some o) env))
      ∧ (NewLogHandler 0 (some zeroOptions) emptyEnv).2
          = some (resolveOptions (some zeroOptions) emptyEnv)
      ∧ resolveOptions (some zeroOptions) emptyEnv ≠ zeroOptions :=
  ⟨fun _ _ _ => rfl, by rfl, by decide⟩

/-- C10: WithGroup with the empty string is not a no-op: the empty name is
appended to the group sequence and participates in the dot-join, so a freshly
constructed handler derived by WithGroup("") then WithGroup("G") renders the
scope clause ".G:" (leading dot) where deriving only WithGroup("G") renders
"G:". -/
theorem withGroup_empty_name_participates :
    (∀ h : LogHandler, (h.withGroup "").groups = h.groups ++ [""])
      ∧ (∀ (w : Nat) (opts0 : Option LogHandlerOptions) (env : Env) (t : Nat),
          withClause (((NewLogHandler w opts0 env).1.withGroup "").withGroup "G") t = ".G:")
      ∧ (∀ (w : Nat) (opts0 : Option LogHandlerOptions) (env : Env) (t : Nat),
          withClause ((NewLogHandler w opts0 env).1.withGroup "G") t = "G:") :=
  ⟨fun _ => rfl, fun _ _ _ _ => rfl, fun _ _ _ _ => rfl⟩

end Nslog
